import Mathlib

/-!
Shallow embedding of the kath variant-annotation core
(back end routes and tools for CADD and REVEL scoring), together with
proofs about the behaviour its specification describes.

Conventions of the embedding:
* Python strings are Lean String; helpers pySplit, pyStrip, pyStrLt model
  str.split with a one-character separator, str.strip with no argument and
  the code-point-lexicographic string comparison, all by structural
  recursion over the character list so that every definition evaluates
  inside the kernel.
* Python None / pandas NA is Option.none; a value that may be NA is an
  Option String.
* A Python function that can raise is embedded as Except PyErr; an
  exception that the source catches is folded into the returned value,
  an exception that escapes the source function becomes Except.error.
* Files are modelled as the list of their lines (file read / write is the
  identity on line lists); a pandas DataFrame is its header row plus the
  list of its rows, each row a list of optional cells.
* SQLite tables are lists of records; INSERT OR IGNORE under a primary
  key is insertion only when no record with the same key is present yet.
-/

namespace Kath

/-! ## Python string primitives -/

/-- Whitespace characters removed by the Python str.strip() default. -/
def pyWs (c : Char) : Bool :=
  c = ' ' || c = '\t' || c = '\n' || c = '\r' || c = '\x0b' || c = '\x0c'

/-- Helper for pySplit: split a character list at every separator.
The accumulator holds the current field reversed. -/
def pySplitAux (sep : Char) : List Char → List Char → List (List Char)
  | [], acc => [acc.reverse]
  | c :: cs, acc =>
    if c = sep then acc.reverse :: pySplitAux sep cs []
    else pySplitAux sep cs (c :: acc)

/-- Python str.split(sep) for a one-character separator:
"".split(sep) is [""], separators at the ends produce empty fields. -/
def pySplit (s : String) (sep : Char) : List String :=
  (pySplitAux sep s.data []).map fun l => ⟨l⟩

/-- Python str.strip(): drop leading and trailing whitespace. -/
def pyStrip (s : String) : String :=
  ⟨((s.data.dropWhile pyWs).reverse.dropWhile pyWs).reverse⟩

/-- Code-point lexicographic order on character lists, the order Python
uses to compare two str values. -/
def pyStrLtChars : List Char → List Char → Bool
  | [], [] => false
  | [], _ :: _ => true
  | _ :: _, [] => false
  | a :: as, b :: bs =>
    if a.val < b.val then true
    else if b.val < a.val then false
    else pyStrLtChars as bs

/-- Python a > b on strings. -/
def pyStrGt (a b : String) : Bool := pyStrLtChars b.data a.data

/-- Digit characters with single underscores between digit groups, the
shape Python accepts inside an int() or float() literal. -/
def undDigitsAux : List Char → Bool
  | [] => true
  | '_' :: c :: cs => c.isDigit && undDigitsAux cs
  | '_' :: [] => false
  | c :: cs => c.isDigit && undDigitsAux cs

/-- A nonempty digit sequence, underscores only between digits. -/
def pyDigitsOk : List Char → Bool
  | [] => false
  | c :: cs => c.isDigit && undDigitsAux cs

/-- Numeric value of a digit list, underscores skipped. -/
def digitsToNat : List Char → Nat → Nat
  | [], acc => acc
  | c :: cs, acc =>
    if c = '_' then digitsToNat cs acc
    else digitsToNat cs (acc * 10 + (c.toNat - '0'.toNat))

/-- Value of an unsigned Python int literal, when well formed. -/
def pyNatOfChars (l : List Char) : Option Nat :=
  if pyDigitsOk l then some (digitsToNat l 0) else none

/-- Python int(s): optional surrounding whitespace, optional sign, then a
digit sequence (ASCII digits; underscores allowed between digits).
Returns none where int(s) raises ValueError. -/
def pyParseInt (s : String) : Option Int :=
  match (s.data.dropWhile pyWs).reverse.dropWhile pyWs |>.reverse with
  | '+' :: rest => (pyNatOfChars rest).map fun n => (n : Int)
  | '-' :: rest => (pyNatOfChars rest).map fun n => -(n : Int)
  | rest => (pyNatOfChars rest).map fun n => (n : Int)

/-- Optional exponent part of a Python float literal: (e|E) sign? digits. -/
def pyFloatExpOk : List Char → Bool
  | [] => true
  | 'e' :: '+' :: rest => pyDigitsOk rest
  | 'e' :: '-' :: rest => pyDigitsOk rest
  | 'e' :: rest => pyDigitsOk rest
  | 'E' :: '+' :: rest => pyDigitsOk rest
  | 'E' :: '-' :: rest => pyDigitsOk rest
  | 'E' :: rest => pyDigitsOk rest
  | _ => false

/-- Split a character list at the first dot, for the float mantissa. -/
def splitAtDot : List Char → Option (List Char × List Char)
  | [] => none
  | '.' :: rest => some ([], rest)
  | c :: rest => (splitAtDot rest).map fun p => (c :: p.1, p.2)

/-- Split a character list at the first e or E, for the float exponent. -/
def splitAtExp : List Char → List Char × List Char
  | [] => ([], [])
  | 'e' :: rest => ([], 'e' :: rest)
  | 'E' :: rest => ([], 'E' :: rest)
  | c :: rest =>
    let p := splitAtExp rest
    (c :: p.1, p.2)

/-- Mantissa of a Python float literal: digits, digits dot digits?,
digits? dot digits. -/
def pyFloatMantissaOk (l : List Char) : Bool :=
  match splitAtDot l with
  | none => pyDigitsOk l
  | some (intPart, fracPart) =>
    if intPart.isEmpty then pyDigitsOk fracPart
    else if fracPart.isEmpty then pyDigitsOk intPart
    else pyDigitsOk intPart && pyDigitsOk fracPart

/-- Unsigned body of a Python float literal, also inf / infinity / nan. -/
def pyFloatBodyOk (l : List Char) : Bool :=
  let lower := l.map Char.toLower
  if lower = "inf".data || lower = "infinity".data || lower = "nan".data then true
  else
    let p := splitAtExp l
    pyFloatMantissaOk p.1 && pyFloatExpOk p.2

/-- Python float(s) succeeds: strip whitespace, optional sign, then a
well-formed float body.  Returns false where float(s) raises ValueError. -/
def isPyFloat (s : String) : Bool :=
  match (s.data.dropWhile pyWs).reverse.dropWhile pyWs |>.reverse with
  | '+' :: rest => pyFloatBodyOk rest
  | '-' :: rest => pyFloatBodyOk rest
  | rest => pyFloatBodyOk rest

/-- Truthiness of an optional query-string value in Python: None and the
empty string are falsy, every other string is truthy. -/
def pyTruthyStr : Option String → Bool
  | none => false
  | some s => !(s.data.isEmpty)

/-! ## Exceptions -/

/-- Python exceptions that escape the embedded functions. -/
inductive PyErr where
  | valueError
  | attributeError
deriving DecidableEq

/-! ## CADD tool: parse_variant (src/app/back_end/src/tools/cadd.py) -/

/-- Result tuple of parse_variant: chromosome, position, reference and
alternate allele, all as strings. -/
structure ParsedVariant where
  chrom : String
  pos : String
  ref : String
  alt : String
deriving DecidableEq

/-- parse_variant from tools/cadd.py.  The source tries to unpack
variant_str.split("-") into four names; on ValueError the handler unpacks
the same split into three names, so a split of any other length raises a
second ValueError that no handler catches; on AttributeError (variant_str
is None or NA rather than a string) it returns the all-dot sentinel. -/
def parse_variant : Option String → Except PyErr ParsedVariant
  | none => .ok ⟨".", ".", ".", "."⟩
  | some s =>
    match pySplit s '-' with
    | [chrom, pos, ref, alt] => .ok ⟨chrom, pos, ref, alt⟩
    | [chrom, pos, _] => .ok ⟨chrom, pos, ".", "."⟩
    | _ => .error .valueError

/-! ## CADD tool: parse_tsv (src/app/back_end/src/tools/cadd.py) -/

/-- Join key used by parse_tsv: four fields separated by colons. -/
def mkTsvKey (c0 c1 c2 c3 : String) : String :=
  c0 ++ ":" ++ c1 ++ ":" ++ c2 ++ ":" ++ c3

/-- A Python dict observed only through d[k] = v and d.get(k, default) is
modelled as the append log of its assignments; get returns the value of
the last assignment to the key. -/
def dictGet (m : List (String × String)) (k : String) : Option String :=
  (m.reverse.find? fun e => e.1 = k).map fun e => e.2

/-- A TSV line is a comment when it starts with a hash character. -/
def isCommentLine (line : String) : Bool :=
  match line.data with
  | '#' :: _ => true
  | [] => false
  | _ :: _ => false

/-- Columns of one line, as parse_tsv computes them:
line.strip().split(tab). -/
def tsvColsOf (line : String) : List String :=
  pySplit (pyStrip line) '\t'

/-- First loop of parse_tsv: build the key-to-score dict from the TSV
lines, skipping comment lines.  Reading columns 0..3 and 5 of a
non-comment line with fewer than six columns raises IndexError, which the
enclosing handler rewraps as ValueError. -/
def buildTsvAux (m : List (String × String)) : List String → Except PyErr (List (String × String))
  | [] => .ok m
  | line :: rest =>
    if isCommentLine line then buildTsvAux m rest
    else
      let cols := tsvColsOf line
      if cols.length < 6 then .error .valueError
      else
        buildTsvAux
          (m ++ [(mkTsvKey (cols.getD 0 "") (cols.getD 1 "") (cols.getD 2 "") (cols.getD 3 ""),
                  cols.getD 5 "")]) rest

/-- The (key, score) pairs the TSV lines contribute, in file order;
comment lines and (unreachable when buildTsvAux succeeds) short lines
contribute nothing. -/
def tsvEntries : List String → List (String × String)
  | [] => []
  | line :: rest =>
    if isCommentLine line then tsvEntries rest
    else
      let cols := tsvColsOf line
      if cols.length < 6 then tsvEntries rest
      else
        (mkTsvKey (cols.getD 0 "") (cols.getD 1 "") (cols.getD 2 "") (cols.getD 3 ""),
         cols.getD 5 "") :: tsvEntries rest

/-- Join key of a VCF line: columns 0, 1, 3 and 4. -/
def vcfKey (cols : List String) : String :=
  mkTsvKey (cols.getD 0 "") (cols.getD 1 "") (cols.getD 3 "") (cols.getD 4 "")

/-- Second loop of parse_tsv, one score per VCF line: lines with fewer
than five columns and lines whose key is absent from the dict get the
sentinel. -/
def scoreForVcfLine (m : List (String × String)) (line : String) : String :=
  if (tsvColsOf line).length < 5 then "CADD score unavailable"
  else (dictGet m (vcfKey (tsvColsOf line))).getD "CADD score unavailable"

/-- parse_tsv from tools/cadd.py: build the score dict from the TSV file,
then map every VCF line to exactly one score cell. -/
def parse_tsv (tsvLines vcfLines : List String) : Except PyErr (List String) :=
  match buildTsvAux [] tsvLines with
  | .error e => .error e
  | .ok m => .ok (vcfLines.map (scoreForVcfLine m))

/-! ## CADD tool: write_vcf and cadd_pipeline -/

/-- One optional cell of a DataFrame; none is pandas NA. -/
abbrev Cell := Option String

/-- A pandas DataFrame with a default integer index: column names plus
rows of cells, row i cell j belonging to column j. -/
structure DataFrame where
  cols : List String
  rows : List (List Cell)
deriving DecidableEq

/-- Columns write_vcf searches for a variant identifier, in order. -/
def variantColumns : List String :=
  ["hg38_gnomad_format", "variant_id_gnomad", "variant_id", "hg38_ID_clinvar"]

/-- Indexing a row Series by column name: none when the column is absent
from the frame (col in row is False), otherwise the cell. -/
def rowCell (cols : List String) (row : List Cell) (c : String) : Option Cell :=
  match cols.findIdx? fun x => x = c with
  | some i => some (row.getD i none)
  | none => none

/-- The first value among variantColumns that is present, not NA and not
the question-mark placeholder; none when every candidate fails. -/
def firstValueFrom (cols : List String) (row : List Cell) : List String → Option String
  | [] => none
  | c :: rest =>
    match rowCell cols row c with
    | some (some v) => if v = "?" then firstValueFrom cols row rest else some v
    | _ => firstValueFrom cols row rest

/-- The VCF line write_vcf emits for one parsed variant:
chrom, pos, dot, ref, alt, tab separated (the newline terminator of the
file is part of the line encoding and omitted here). -/
def vcfLineOf (pv : ParsedVariant) : String :=
  pv.chrom ++ "\t" ++ pv.pos ++ "\t.\t" ++ pv.ref ++ "\t" ++ pv.alt

/-- Map a fallible function over a list, stopping at the first raised
exception, as a Python for-loop does. -/
def mapE (f : α → Except PyErr β) : List α → Except PyErr (List β)
  | [] => .ok []
  | a :: as =>
    match f a with
    | .error e => .error e
    | .ok b =>
      match mapE f as with
      | .error e => .error e
      | .ok bs => .ok (b :: bs)

/-- write_vcf from tools/cadd.py: one line per DataFrame row, built from
the first available variant identifier of the row; an exception from
parse_variant escapes. -/
def write_vcf (df : DataFrame) : Except PyErr (List String) :=
  mapE
    (fun row => (parse_variant (firstValueFrom df.cols row variantColumns)).map vcfLineOf)
    df.rows

/-- pd.concat axis 1 of two frames of equal length on the default index:
append the score of row i to row i. -/
def zipScoreColumn : List (List Cell) → List String → List (List Cell)
  | [], _ => []
  | _ :: _, [] => []
  | row :: rows, s :: ss => (row ++ [some s]) :: zipScoreColumn rows ss

/-- cadd_pipeline from tools/cadd.py.  The remote interaction is reduced
to its observable data: the TSV lines the CADD service returns for the
submitted VCF.  The source copies the input frame, writes the VCF, scores
it remotely, parses one score per VCF line and concatenates the scores as
the new PHRED_cadd column; gzip, upload and file cleanup do not change
the data and are omitted. -/
def cadd_pipeline (df : DataFrame) (caddTsvLines : List String) : Except PyErr DataFrame :=
  match write_vcf df with
  | .error e => .error e
  | .ok vcfLines =>
    match parse_tsv caddTsvLines vcfLines with
    | .error e => .error e
    | .ok scores => .ok ⟨df.cols ++ ["PHRED_cadd"], zipScoreColumn df.rows scores⟩

/-! ## CADD tool: extract_job_id and download_cadd_scores -/

/-- Lowercase hexadecimal characters, the character class of the job-id
regular expression. -/
def isHexLower (c : Char) : Bool :=
  c.isDigit || ('a' ≤ c && c ≤ 'f')

/-- Leftmost match of an underscore followed by exactly thirty-two
lowercase hexadecimal characters; the returned group includes the
underscore, as match.group(0) does. -/
def extractJobIdAux : List Char → Option (List Char)
  | [] => none
  | c :: cs =>
    if c = '_' && (cs.take 32).length = 32 && (cs.take 32).all isHexLower then
      some ('_' :: cs.take 32)
    else extractJobIdAux cs

/-- extract_job_id from tools/cadd.py. -/
def extract_job_id (url : String) : Option String :=
  (extractJobIdAux url.data).map fun l => ⟨l⟩

/-- Observable behaviour of the remote CADD site for one job, as
download_cadd_scores can see it: the href of the finished link when it
appears within the initial bounded wait, the href of the check_avail link
when that appears within its bounded wait, and the outcome of each later
refresh of the polling loop. -/
structure CaddEnv where
  initialFinished : Option String
  checkAvail : Option String
  pollFinished : List (Option String)
deriving DecidableEq

/-- What a call of download_cadd_scores does. -/
inductive CaddOutcome where
  | returned (jobId : Option String)
  | raisedTimeout (msg : String)
  | unboundLocalError
  | divergesPolling
deriving DecidableEq

/-- The refresh loop of download_cadd_scores: each refresh either exposes
the finished link (the loop breaks and the job id is taken from that
link) or times out again (bare except, sleep, retry).  The source loop
has no retry bound, so an environment that never exposes the link makes
it run forever. -/
def caddPollLoop : List (Option String) → CaddOutcome
  | [] => .divergesPolling
  | none :: rest => caddPollLoop rest
  | some href :: _ => .returned (extract_job_id href)

/-- download_cadd_scores from tools/cadd.py.  The finally clause of the
source executes return job_id on every exit path, which discards any
in-flight exception; on the path where neither the finished link nor the
check_avail link was found, job_id was never assigned, so evaluating it
in the finally clause raises UnboundLocalError instead of the
TimeoutException the function just constructed.  No path can produce
raisedTimeout. -/
def download_cadd_scores (env : CaddEnv) : CaddOutcome :=
  match env.initialFinished with
  | some href => .returned (extract_job_id href)
  | none =>
    match env.checkAvail with
    | some _ => caddPollLoop env.pollFinished
    | none => .unboundLocalError

/-! ## CADD apply route (src/app/back_end/src/routes/workspace_apply_route.py) -/

/-- Persisted rows of the CADD apply route, lines 261 to 281 of the route
module: override is the raw query-string value and is tested for Python
truthiness; when the destination exists and override is truthy the file
is removed and only the fresh rows are written; when the destination
exists and override is falsy the existing rows are read and, when
nonempty, prepended to the fresh rows. -/
def applyCaddPersist (destExists : Bool) (override : Option String)
    (existingRows freshRows : List α) : List α :=
  let existing : List α :=
    if destExists then (if pyTruthyStr override then [] else existingRows) else []
  if existing.isEmpty then freshRows else existing ++ freshRows

/-! ## REVEL store (src/app/back_end/src/scripts/revel.py) -/

/-- One row of the REVEL CSV, the five fields the loader reads, still as
raw strings. -/
structure RevelCsvRow where
  chr : String
  grch38_pos : String
  ref : String
  alt : String
  revel : String
deriving DecidableEq

/-- One record of the revel SQLite table.  The REVEL REAL value is
represented by the literal text the loader passed to float(); the claims
never compute with the score, only compare which record carries it. -/
structure RevelRecord where
  chr : String
  grch38_pos : Int
  ref : String
  alt : String
  revel : String
deriving DecidableEq

/-- Exact match of a record against the four primary-key fields. -/
def keyMatches (rec : RevelRecord) (c : String) (p : Int) (r a : String) : Bool :=
  rec.chr = c && rec.grch38_pos = p && rec.ref = r && rec.alt = a

/-- Two records with the same primary key. -/
def sameKey (x y : RevelRecord) : Bool :=
  keyMatches x y.chr y.grch38_pos y.ref y.alt

/-- The numeric conversion of one CSV row: int on the position, float on
the score; none when either conversion raises, which the loader logs and
skips. -/
def parseCsvRow (row : RevelCsvRow) : Option RevelRecord :=
  match pyParseInt row.grch38_pos with
  | some p => if isPyFloat row.revel then some ⟨row.chr, p, row.ref, row.alt, row.revel⟩ else none
  | none => none

/-- The stream of records RevelTable.init_table feeds to the insert
statements, in CSV order: stop at the first row whose chromosome is
lexically greater than 6, skip rows whose chromosome is not 6 or whose
position is the dot placeholder, skip rows whose numeric conversion
fails.  Chunked executemany inserts preserve this order, so the chunk
borders are immaterial to the table content. -/
def parsedStream : List RevelCsvRow → List RevelRecord
  | [] => []
  | row :: rest =>
    if pyStrGt row.chr "6" then []
    else if row.chr ≠ "6" ∨ row.grch38_pos = "." then parsedStream rest
    else
      match parseCsvRow row with
      | some rec => rec :: parsedStream rest
      | none => parsedStream rest

/-- INSERT OR IGNORE under the primary key: the record is appended only
when no record with the same key is present. -/
def insertOrIgnore (s : List RevelRecord) (r : RevelRecord) : List RevelRecord :=
  if s.any fun x => sameKey x r then s else s ++ [r]

/-- Insert a list of records in order, each with INSERT OR IGNORE. -/
def insertMany (s : List RevelRecord) (l : List RevelRecord) : List RevelRecord :=
  l.foldl insertOrIgnore s

/-- The revel table after the bulk load of the given CSV rows. -/
def buildStore (rows : List RevelCsvRow) : List RevelRecord :=
  insertMany [] (parsedStream rows)

/-- Store build failures. -/
inductive BuildError where
  | alreadyExists
deriving DecidableEq

/-- RevelTable.init_table from scripts/revel.py: raise FileExistsError
when the target database file already exists, touching nothing, otherwise
create the table and bulk load the rows. -/
def init_table (dbExists : Bool) (rows : List RevelCsvRow) : Except BuildError (List RevelRecord) :=
  if dbExists then .error .alreadyExists else .ok (buildStore rows)

/-! ## REVEL initiator (src/app/back_end/src/tools/revel/revel.py) -/

/-- What a call of prepare_revel_database does. -/
inductive PrepareOutcome where
  | skippedExisting
  | conversionLoop
deriving DecidableEq

/-- prepare_revel_database from tools/revel/revel.py: when the database
file already exists it prints a notice and returns the existing path,
performing no build and raising nothing — in particular it does not fail
with an already-exists error; otherwise it enters the chunked conversion
loop. -/
def prepare_revel_database (dbExists : Bool) : Except BuildError PrepareOutcome :=
  if dbExists then .ok .skippedExisting else .ok .conversionLoop

/-! ## REVEL lookup (src/app/back_end/src/tools/revel.py and tools/revel/revel.py) -/

/-- The first record matching the four key fields, as the exact-match
SELECT with fetchone returns it; key uniqueness in the table makes the
visit order immaterial. -/
def findKey (s : List RevelRecord) (c : String) (p : Int) (r a : String) : Option RevelRecord :=
  s.find? fun rec => keyMatches rec c p r a

/-- How many records of the table match the four key fields. -/
def countKey (s : List RevelRecord) (c : String) (p : Int) (r a : String) : Nat :=
  (s.filter fun rec => keyMatches rec c p r a).length

/-- get_single_revel_score: exact-match point query on the primary key;
the score of the matching record, or none (pd.NA) when no record
matches.  The caller passes the position textually and the INTEGER
affinity of the grch38_pos column converts it before comparison; the
argument here is the converted integer. -/
def get_single_revel_score (store : List RevelRecord) (chromosome : String)
    (grch38_position : Int) (ref alt : String) : Option String :=
  (findKey store chromosome grch38_position ref alt).map fun rec => rec.revel

/-- SQLite INTEGER affinity applied to a textual comparison operand: a
text value that is a well-formed integer literal (optional sign, digits)
compares as that integer, any other text never equals an INTEGER
column value. -/
def sqliteTextToInt (s : String) : Option Int :=
  match s.data with
  | '+' :: rest => if rest ≠ [] && rest.all Char.isDigit then some (digitsToNat rest 0 : Nat) else none
  | '-' :: rest => if rest ≠ [] && rest.all Char.isDigit then some (-(digitsToNat rest 0 : Int)) else none
  | rest => if rest ≠ [] && rest.all Char.isDigit then some (digitsToNat rest 0 : Nat) else none

/-! ## REVEL batch resolver (src/app/back_end/src/tools/revel/revel.py) -/

/-- One iteration of assign_revel_scores, producing the REVEL cell of row
i: NA input propagates NA and continues; a variant string that does not
split into exactly four parts raises ValueError inside the loop body,
which the handler turns into NA for that row; a well-formed variant is
looked up, absent keys give NA. -/
def assign_revel_row (store : List RevelRecord) (cell : Option String) : Option String :=
  match cell with
  | none => none
  | some s =>
    match pySplit s '-' with
    | [c, p, r, a] =>
      match sqliteTextToInt p with
      | some n => get_single_revel_score store c n r a
      | none => none
    | _ => none

/-- assign_revel_scores from tools/revel/revel.py: the loop writes one
REVEL cell per input row, in row order; no row aborts the batch. -/
def assign_revel_scores (store : List RevelRecord) (cells : List (Option String)) :
    List (Option String) :=
  cells.map (assign_revel_row store)

/-! ## Dictionary lemmas -/

/-- Appending one assignment changes dictGet only at its key. -/
theorem dictGet_append_single (m : List (String × String)) (k v k2 : String) :
    dictGet (m ++ [(k, v)]) k2 = if k2 = k then some v else dictGet m k2 := by
  unfold dictGet
  rw [List.reverse_append]
  simp only [List.reverse_cons, List.reverse_nil, List.nil_append, List.cons_append,
    List.find?]
  by_cases h : k = k2
  · subst h
    simp
  · have : (decide (k = k2)) = false := by simp [h]
    simp only [this]
    simp [Ne.symm h]

/-- A value dictGet returns was assigned to that key. -/
theorem dictGet_some_mem (m : List (String × String)) (k v : String)
    (h : dictGet m k = some v) : (k, v) ∈ m := by
  unfold dictGet at h
  cases hf : m.reverse.find? fun e => e.1 = k with
  | none => rw [hf] at h; simp at h
  | some e =>
    rw [hf] at h
    simp only [Option.map_some'] at h
    have hmem : e ∈ m.reverse := List.mem_of_find?_eq_some hf
    have hkey : e.1 = k := by
      have := List.find?_some hf
      simpa using this
    have hv : e.2 = v := by simpa using h
    have : e = (k, v) := by
      cases e
      simp_all
    rw [← this]
    exact List.mem_reverse.mp hmem

/-- dictGet misses every key that was never assigned. -/
theorem dictGet_none_of_not_mem (m : List (String × String)) (k : String)
    (h : ∀ e ∈ m, e.1 ≠ k) : dictGet m k = none := by
  unfold dictGet
  have : m.reverse.find? (fun e => e.1 = k) = none := by
    rw [List.find?_eq_none]
    intro e he
    have : e ∈ m := List.mem_reverse.mp he
    simpa using h e this
  rw [this]
  rfl

/-! ## parse_tsv lemmas -/

/-- A successful first loop of parse_tsv appends exactly the entries of
the TSV lines to the dictionary log. -/
theorem buildTsvAux_ok (tsv : List String) :
    ∀ m mOut, buildTsvAux m tsv = .ok mOut → mOut = m ++ tsvEntries tsv := by
  induction tsv with
  | nil =>
    intro m mOut h
    simp only [buildTsvAux] at h
    cases h
    simp [tsvEntries]
  | cons line rest ih =>
    intro m mOut h
    simp only [buildTsvAux, tsvEntries] at h ⊢
    by_cases hc : isCommentLine line
    · simp only [hc, if_true] at h ⊢
      exact ih m mOut h
    · simp only [hc, if_false] at h ⊢
      by_cases hl : (tsvColsOf line).length < 6
      · simp [hl] at h
      · simp only [hl, if_false] at h ⊢
        have := ih _ _ h
        rw [this]
        simp

/-- getD through map at an index inside the list. -/
theorem getD_map_lt {α β : Type} (l : List α) (f : α → β) (i : Nat)
    (h : i < l.length) (d : α) (d2 : β) :
    (l.map f).getD i d2 = f (l.getD i d) := by
  rw [List.getD_eq_getElem?_getD, List.getD_eq_getElem?_getD, List.getElem?_map,
    List.getElem?_eq_getElem h]
  rfl

/-- A successful parse_tsv is the map of the per-line score over the VCF
lines, with the dictionary holding exactly the TSV entries. -/
theorem parse_tsv_ok (tsvLines vcfLines out : List String)
    (h : parse_tsv tsvLines vcfLines = .ok out) :
    out = vcfLines.map (scoreForVcfLine (tsvEntries tsvLines)) := by
  unfold parse_tsv at h
  cases hb : buildTsvAux [] tsvLines with
  | error e => rw [hb] at h; cases h
  | ok m =>
    rw [hb] at h
    cases h
    have hm := buildTsvAux_ok tsvLines [] m hb
    simp only [List.nil_append] at hm
    rw [hm]

/-- Claim C3: for every input row of the annotation batch, parse_tsv
yields exactly one score cell: the output has the same length as the VCF
input, the score at index i is joined by exact
chromosome-position-reference-alternate key match for the variant at
input index i, and a variant with no match in the TSV result (or a
malformed short line) is assigned the sentinel rather than dropped. -/
theorem claim_c3_row_alignment (tsvLines vcfLines out : List String)
    (h : parse_tsv tsvLines vcfLines = Except.ok out) :
    out.length = vcfLines.length ∧
    ∀ i, i < vcfLines.length →
      ((tsvColsOf (vcfLines.getD i "")).length < 5 →
        out.getD i "" = "CADD score unavailable") ∧
      ((∀ e ∈ tsvEntries tsvLines, e.1 ≠ vcfKey (tsvColsOf (vcfLines.getD i ""))) →
        out.getD i "" = "CADD score unavailable") ∧
      (out.getD i "" ≠ "CADD score unavailable" →
        (vcfKey (tsvColsOf (vcfLines.getD i "")), out.getD i "") ∈ tsvEntries tsvLines) := by
  have hout := parse_tsv_ok tsvLines vcfLines out h
  subst hout
  refine ⟨List.length_map .., ?_⟩
  intro i hi
  rw [getD_map_lt vcfLines _ i hi ""]
  unfold scoreForVcfLine
  by_cases hshort : (tsvColsOf (vcfLines.getD i "")).length < 5
  · rw [if_pos hshort]
    refine ⟨fun _ => rfl, fun _ => rfl, fun hne => absurd rfl hne⟩
  · rw [if_neg hshort]
    refine ⟨fun hc => absurd hc hshort, ?_, ?_⟩
    · intro hmiss
      rw [dictGet_none_of_not_mem _ _ (fun e he => hmiss e he)]
      rfl
    · intro hne
      cases hd : dictGet (tsvEntries tsvLines) (vcfKey (tsvColsOf (vcfLines.getD i ""))) with
      | none => rw [hd] at hne; exact absurd rfl hne
      | some v => exact dictGet_some_mem _ _ _ hd

/-- Witness for claim C3 at a concrete TSV and VCF: the matched row gets
its TSV score, the unmatched row gets the sentinel, no row is dropped. -/
theorem claim_c3_witness :
    (["22.5", "CADD score unavailable"] : List String).length =
      (["6\t100\t.\tA\tT", "x"] : List String).length ∧
    ("6:100:A:T", "22.5") ∈ tsvEntries ["#c", "6\t100\tA\tT\tz\t22.5"] := by
  have h : parse_tsv ["#c", "6\t100\tA\tT\tz\t22.5"] ["6\t100\t.\tA\tT", "x"] =
      Except.ok ["22.5", "CADD score unavailable"] := rfl
  have t := claim_c3_row_alignment ["#c", "6\t100\tA\tT\tz\t22.5"]
    ["6\t100\t.\tA\tT", "x"] ["22.5", "CADD score unavailable"] h
  refine ⟨t.1, ?_⟩
  have h0 := (t.2 0 (by decide)).2.2
  exact h0 (by decide)

/-! ## REVEL store lemmas -/

/-- Every record matches its own key. -/
theorem keyMatches_self (rec : RevelRecord) :
    keyMatches rec rec.chr rec.grch38_pos rec.ref rec.alt = true := by
  simp [keyMatches]

/-- Two records matching the same key share a key. -/
theorem keyMatches_trans (x hd : RevelRecord) (c : String) (p : Int) (r a : String)
    (hx : keyMatches x c p r a = true) (hh : keyMatches hd c p r a = true) :
    sameKey x hd = true := by
  simp only [keyMatches, sameKey, Bool.and_eq_true, decide_eq_true_eq] at hx hh ⊢
  obtain ⟨⟨⟨x1, x2⟩, x3⟩, x4⟩ := hx
  obtain ⟨⟨⟨h1, h2⟩, h3⟩, h4⟩ := hh
  exact ⟨⟨⟨x1.trans h1.symm, x2.trans h2.symm⟩, x3.trans h3.symm⟩, x4.trans h4.symm⟩

/-- A record sharing a key with a record that matches some key fields
matches them as well. -/
theorem keyMatches_of_sameKey (x hd : RevelRecord) (c : String) (p : Int) (r a : String)
    (hs : sameKey x hd = true) (hh : keyMatches hd c p r a = true) :
    keyMatches x c p r a = true := by
  simp only [sameKey, keyMatches, Bool.and_eq_true, decide_eq_true_eq] at hs hh ⊢
  obtain ⟨⟨⟨s1, s2⟩, s3⟩, s4⟩ := hs
  obtain ⟨⟨⟨h1, h2⟩, h3⟩, h4⟩ := hh
  exact ⟨⟨⟨s1.trans h1, s2.trans h2⟩, s3.trans h3⟩, s4.trans h4⟩

/-- findKey on a cons. -/
theorem findKey_cons (x : RevelRecord) (s : List RevelRecord) (c : String) (p : Int)
    (r a : String) :
    findKey (x :: s) c p r a =
      if keyMatches x c p r a then some x else findKey s c p r a := by
  by_cases h : keyMatches x c p r a <;> simp [findKey, List.find?, h]

/-- findKey distributes over append. -/
theorem findKey_append (s t : List RevelRecord) (c : String) (p : Int) (r a : String) :
    findKey (s ++ t) c p r a = (findKey s c p r a).or (findKey t c p r a) := by
  simp [findKey, List.find?_append]

/-- The visible effect of the whole chunked INSERT OR IGNORE load on a
point query: the first record of the input stream with the queried key
wins, records already present shadow the stream. -/
theorem findKey_insertMany (l : List RevelRecord) :
    ∀ s (c : String) (p : Int) (r a : String),
      findKey (insertMany s l) c p r a =
        (findKey s c p r a).or (findKey l c p r a) := by
  induction l with
  | nil =>
    intro s c p r a
    show findKey s c p r a = (findKey s c p r a).or none
    cases h : findKey s c p r a <;> rfl
  | cons hd tl ih =>
    intro s c p r a
    have hstep : insertMany s (hd :: tl) = insertMany (insertOrIgnore s hd) tl := rfl
    rw [hstep, ih, findKey_cons]
    by_cases hany : s.any fun x => sameKey x hd
    · have hio : insertOrIgnore s hd = s := by simp [insertOrIgnore, hany]
      rw [hio]
      by_cases hm : keyMatches hd c p r a
      · rw [if_pos hm]
        obtain ⟨x, hx, hsx⟩ := List.any_eq_true.mp hany
        have hxK : keyMatches x c p r a = true := keyMatches_of_sameKey x hd c p r a hsx hm
        have hsome : (findKey s c p r a).isSome := by
          unfold findKey
          rw [List.find?_isSome]
          exact ⟨x, hx, hxK⟩
        obtain ⟨y, hy⟩ := Option.isSome_iff_exists.mp hsome
        rw [hy]
        rfl
      · rw [if_neg hm]
    · have hio : insertOrIgnore s hd = s ++ [hd] := by simp [insertOrIgnore, hany]
      rw [hio, findKey_append, Option.or_assoc]
      congr 1
      by_cases hm : keyMatches hd c p r a
      · simp [findKey_cons, hm, findKey, Option.or]
      · simp [findKey_cons, hm, findKey, Option.or]

/-- countKey distributes over append. -/
theorem countKey_append (s t : List RevelRecord) (c : String) (p : Int) (r a : String) :
    countKey (s ++ t) c p r a = countKey s c p r a + countKey t c p r a := by
  simp [countKey, List.filter_append]

/-- A member matching the key makes the count positive. -/
theorem countKey_pos_of_mem (s : List RevelRecord) (x : RevelRecord) (c : String) (p : Int)
    (r a : String) (hx : x ∈ s) (hm : keyMatches x c p r a = true) :
    1 ≤ countKey s c p r a := by
  have hmem : x ∈ s.filter fun rec => keyMatches rec c p r a := List.mem_filter.mpr ⟨hx, hm⟩
  exact List.length_pos.mpr (List.ne_nil_of_mem hmem)

/-- A list with no matching member has count zero. -/
theorem countKey_eq_zero (s : List RevelRecord) (c : String) (p : Int) (r a : String)
    (h : ∀ x ∈ s, keyMatches x c p r a = false) : countKey s c p r a = 0 := by
  unfold countKey
  rw [List.length_eq_zero, List.filter_eq_nil_iff]
  intro x hx
  simp [h x hx]

/-- Inserting a stream with INSERT OR IGNORE keeps the primary key
unique. -/
theorem countKey_insertMany_le (l : List RevelRecord) :
    ∀ s, (∀ (c : String) (p : Int) (r a : String), countKey s c p r a ≤ 1) →
      ∀ (c : String) (p : Int) (r a : String), countKey (insertMany s l) c p r a ≤ 1 := by
  induction l with
  | nil => intro s hs; exact hs
  | cons hd tl ih =>
    intro s hs
    apply ih
    intro c p r a
    by_cases hany : s.any fun x => sameKey x hd
    · have hio : insertOrIgnore s hd = s := by simp [insertOrIgnore, hany]
      rw [hio]
      exact hs c p r a
    · have hio : insertOrIgnore s hd = s ++ [hd] := by simp [insertOrIgnore, hany]
      rw [hio, countKey_append]
      by_cases hm : keyMatches hd c p r a
      · have hz : countKey s c p r a = 0 := by
          apply countKey_eq_zero
          intro x hx
          by_contra hxm
          have hxm2 : keyMatches x c p r a = true := by
            cases hxk : keyMatches x c p r a
            · exact absurd hxk hxm
            · rfl
          have hsk : sameKey x hd = true := keyMatches_trans x hd c p r a hxm2 hm
          exact absurd (List.any_eq_true.mpr ⟨x, hx, hsk⟩) hany
        have h1 : countKey [hd] c p r a = 1 := by simp [countKey, hm]
        omega
      · have h0 : countKey [hd] c p r a = 0 := by simp [countKey, hm]
        have := hs c p r a
        omega

/-- The bulk-loaded store keeps the primary key unique. -/
theorem countKey_buildStore_le (rows : List RevelCsvRow) (c : String) (p : Int)
    (r a : String) : countKey (buildStore rows) c p r a ≤ 1 := by
  exact countKey_insertMany_le (parsedStream rows) []
    (fun c p r a => by simp [countKey]) c p r a

/-- In a key-unique list, findKey at the key of a member returns exactly
that member. -/
theorem findKey_eq_some_of_mem (s : List RevelRecord) (rec : RevelRecord) :
    countKey s rec.chr rec.grch38_pos rec.ref rec.alt ≤ 1 → rec ∈ s →
      findKey s rec.chr rec.grch38_pos rec.ref rec.alt = some rec := by
  induction s with
  | nil => intro _ hm; cases hm
  | cons x xs ih =>
    intro hu hm
    rw [findKey_cons]
    by_cases hx : keyMatches x rec.chr rec.grch38_pos rec.ref rec.alt
    · rw [if_pos hx]
      rcases List.mem_cons.mp hm with h | h
      · rw [h]
      · exfalso
        have h1 : 1 ≤ countKey xs rec.chr rec.grch38_pos rec.ref rec.alt :=
          countKey_pos_of_mem xs rec _ _ _ _ h (keyMatches_self rec)
        have hc : countKey (x :: xs) rec.chr rec.grch38_pos rec.ref rec.alt =
            countKey xs rec.chr rec.grch38_pos rec.ref rec.alt + 1 := by
          simp [countKey, List.filter_cons_of_pos, hx]
        omega
    · rw [if_neg hx]
      have hrecx : rec ≠ x := fun h => hx (h ▸ keyMatches_self rec)
      have hm2 : rec ∈ xs := by
        rcases List.mem_cons.mp hm with h | h
        · exact absurd h hrecx
        · exact h
      apply ih
      · have hc : countKey (x :: xs) rec.chr rec.grch38_pos rec.ref rec.alt =
            countKey xs rec.chr rec.grch38_pos rec.ref rec.alt := by
          simp [countKey, List.filter_cons_of_neg, hx]
        omega
      · exact hm2

/-- Members of the loaded table come from the table or the stream. -/
theorem mem_insertMany (l : List RevelRecord) :
    ∀ s x, x ∈ insertMany s l → x ∈ s ∨ x ∈ l := by
  induction l with
  | nil => intro s x hx; exact .inl hx
  | cons hd tl ih =>
    intro s x hx
    rcases ih (insertOrIgnore s hd) x hx with h | h
    · unfold insertOrIgnore at h
      by_cases hany : s.any fun y => sameKey y hd
      · rw [if_pos hany] at h
        exact .inl h
      · rw [if_neg hany] at h
        rcases List.mem_append.mp h with h2 | h2
        · exact .inl h2
        · have : x = hd := by simpa using h2
          exact .inr (this ▸ List.mem_cons_self hd tl)
    · exact .inr (List.mem_cons_of_mem _ h)

/-- Every record of the filtered parsed stream descends from a source row
with chromosome 6, a non-dot position, a parsable integer position and a
parsable score. -/
theorem parsedStream_mem (rows : List RevelCsvRow) :
    ∀ rec ∈ parsedStream rows, ∃ row ∈ rows,
      row.chr = "6" ∧ row.grch38_pos ≠ "." ∧
      pyParseInt row.grch38_pos = some rec.grch38_pos ∧ isPyFloat row.revel = true ∧
      rec.chr = row.chr ∧ rec.ref = row.ref ∧ rec.alt = row.alt ∧ rec.revel = row.revel := by
  induction rows with
  | nil =>
    intro rec h
    simp [parsedStream] at h
  | cons row rest ih =>
    intro rec h
    unfold parsedStream at h
    by_cases hgt : pyStrGt row.chr "6" = true
    · rw [if_pos hgt] at h
      simp at h
    · rw [if_neg hgt] at h
      by_cases hskip : row.chr ≠ "6" ∨ row.grch38_pos = "."
      · rw [if_pos hskip] at h
        obtain ⟨r2, hr2, hprops⟩ := ih rec h
        exact ⟨r2, List.mem_cons_of_mem _ hr2, hprops⟩
      · rw [if_neg hskip] at h
        push_neg at hskip
        obtain ⟨hchr, hpos⟩ := hskip
        cases hp : parseCsvRow row with
        | some rec0 =>
          rw [hp] at h
          rcases List.mem_cons.mp h with he | ht
          · unfold parseCsvRow at hp
            cases hpi : pyParseInt row.grch38_pos with
            | none => simp only [hpi] at hp; cases hp
            | some q =>
              simp only [hpi] at hp
              by_cases hf : isPyFloat row.revel = true
              · rw [if_pos hf] at hp
                cases hp
                subst he
                exact ⟨row, List.mem_cons_self row rest, hchr, hpos, hpi, hf,
                  rfl, rfl, rfl, rfl⟩
              · rw [if_neg hf] at hp
                cases hp
          · obtain ⟨r2, hr2, hprops⟩ := ih rec ht
            exact ⟨r2, List.mem_cons_of_mem _ hr2, hprops⟩
        | none =>
          rw [hp] at h
          obtain ⟨r2, hr2, hprops⟩ := ih rec h
          exact ⟨r2, List.mem_cons_of_mem _ hr2, hprops⟩

/-! ## Claims on the REVEL store -/

/-- Claim C4: the store keeps chromosome, position, reference and
alternate allele as a primary key.  The point query of the bulk-loaded
store equals the first matching record of the ordered input stream, so
after a load containing two rows with identical keys and different
scores the store answers with the first-loaded score and holds at most
one record for the key; the duplicate is ignored, and the load itself
returns without error. -/
theorem claim_c4_primary_key_first_wins (rows : List RevelCsvRow) (c : String) (p : Int)
    (r a : String) :
    init_table false rows = Except.ok (buildStore rows) ∧
    countKey (buildStore rows) c p r a ≤ 1 ∧
    findKey (buildStore rows) c p r a = findKey (parsedStream rows) c p r a := by
  refine ⟨rfl, countKey_buildStore_le rows c p r a, ?_⟩
  have h := findKey_insertMany (parsedStream rows) [] c p r a
  have hb : buildStore rows = insertMany [] (parsedStream rows) := rfl
  rw [hb, h]
  rfl

/-- Claim C5 counterexample: invoking prepare_revel_database while the
target database file exists does not fail with an already-exists error;
it returns normally, skipping the build and handing back the existing
path.  The claim that every build invocation over an existing target
fails with AlreadyExists is therefore false for this entry point. -/
theorem claim_c5_counterexample :
    prepare_revel_database true = Except.ok PrepareOutcome.skippedExisting := rfl

/-- Claim C5 as amended: RevelTable.init_table fails with the
already-exists error when the target database file exists, building
nothing, while prepare_revel_database silently skips the build and
returns the existing database path without error. -/
theorem claim_c5_build_collision (rows : List RevelCsvRow) :
    init_table true rows = Except.error BuildError.alreadyExists ∧
    prepare_revel_database true = Except.ok PrepareOutcome.skippedExisting :=
  ⟨rfl, rfl⟩

/-- Claim C6: round-trip of build and lookup.  Every record held by the
bulk-loaded store is returned by a lookup on its exact four-field key;
a key that matches no record of the store yields none (the pd.NA
not-found marker), not an error; and lookups on an unchanged store are
idempotent. -/
theorem claim_c6_lookup_round_trip (rows : List RevelCsvRow) :
    (∀ rec ∈ buildStore rows,
      get_single_revel_score (buildStore rows) rec.chr rec.grch38_pos rec.ref rec.alt =
        some rec.revel) ∧
    (∀ (c : String) (p : Int) (r a : String),
      (∀ rec ∈ buildStore rows, keyMatches rec c p r a = false) →
        get_single_revel_score (buildStore rows) c p r a = none) ∧
    (∀ (c : String) (p : Int) (r a : String),
      get_single_revel_score (buildStore rows) c p r a =
        get_single_revel_score (buildStore rows) c p r a) := by
  refine ⟨?_, ?_, fun c p r a => rfl⟩
  · intro rec hm
    have hu := countKey_buildStore_le rows rec.chr rec.grch38_pos rec.ref rec.alt
    have hf := findKey_eq_some_of_mem (buildStore rows) rec hu hm
    unfold get_single_revel_score
    rw [hf]
    rfl
  · intro c p r a hnone
    unfold get_single_revel_score
    have hf : findKey (buildStore rows) c p r a = none := by
      unfold findKey
      rw [List.find?_eq_none]
      intro x hx
      simp [hnone x hx]
    rw [hf]
    rfl

/-- Witness for claim C6 on a one-row store: the loaded key returns its
score, a key differing in the position returns none. -/
theorem claim_c6_witness :
    get_single_revel_score (buildStore [⟨"6", "100", "A", "T", "0.8"⟩]) "6" 100 "A" "T" =
      some "0.8" ∧
    get_single_revel_score (buildStore [⟨"6", "100", "A", "T", "0.8"⟩]) "6" 101 "A" "T" =
      none := by
  constructor
  · exact (claim_c6_lookup_round_trip [⟨"6", "100", "A", "T", "0.8"⟩]).1
      ⟨"6", 100, "A", "T", "0.8"⟩ (by decide)
  · exact (claim_c6_lookup_round_trip [⟨"6", "100", "A", "T", "0.8"⟩]).2.1 "6" 101 "A" "T"
      (by decide)

/-- Claim C7: after the filtered bulk load with chromosome bound 6,
every record of the store has chromosome 6 and a position obtained by a
successful integer parse of a source row whose chromosome is 6 and
whose position is not the dot placeholder — rows past the bound, rows of
other chromosomes, dot positions and rows with unparsable numeric fields
are never included, whether or not the input is sorted; and the load
never fails on any input once the target is absent (unparsable rows are
skipped, not fatal). -/
theorem claim_c7_store_invariant (rows : List RevelCsvRow) :
    init_table false rows = Except.ok (buildStore rows) ∧
    ∀ rec ∈ buildStore rows,
      rec.chr = "6" ∧
      ∃ row ∈ rows, row.chr = "6" ∧ row.grch38_pos ≠ "." ∧
        pyParseInt row.grch38_pos = some rec.grch38_pos ∧ isPyFloat row.revel = true ∧
        rec.chr = row.chr ∧ rec.ref = row.ref ∧ rec.alt = row.alt ∧ rec.revel = row.revel := by
  refine ⟨rfl, ?_⟩
  intro rec hm
  have hstream : rec ∈ parsedStream rows := by
    rcases mem_insertMany (parsedStream rows) [] rec hm with h | h
    · cases h
    · exact h
  obtain ⟨row, hrow, h6, hdot, hpi, hf, hchr, href, halt, hrev⟩ := parsedStream_mem rows rec hstream
  exact ⟨hchr.trans h6, row, hrow, h6, hdot, hpi, hf, hchr, href, halt, hrev⟩

/-- Witness for claim C7 on a load containing a chromosome-7 row, a dot
position and a valid chromosome-6 row: the surviving record has
chromosome 6. -/
theorem claim_c7_witness :
    (⟨"6", 100, "A", "T", "0.8"⟩ : RevelRecord).chr = "6" :=
  ((claim_c7_store_invariant
      [⟨"6", "100", "A", "T", "0.8"⟩, ⟨"6", ".", "A", "T", "0.5"⟩,
        ⟨"7", "1", "A", "T", "0.1"⟩]).2
    ⟨"6", 100, "A", "T", "0.8"⟩ (by decide)).1

/-! ## Claims on the CADD route and orchestrator -/

/-- Claim C1, evaluated at the failing input: the route reads override as
the raw query-string value and tests Python truthiness, so a request
carrying the query value false (the string, as a client sends a false
boolean) is truthy — the existing destination rows A, B are discarded
and only the fresh row C is persisted, where the claim (and the comment
in the route itself) requires the concatenation A, B, C.  The same call
also shows the fresh-only half: the persisted result equals the freshly
scored table. -/
theorem claim_c1_override_false_discards :
    applyCaddPersist true (some "false") ["A", "B"] ["C"] = ["C"] ∧
    applyCaddPersist true (some "") ["A", "B"] ["C"] = ["A", "B", "C"] := by
  constructor <;> rfl

/-- Claim C2, evaluated at the failing inputs: an identifier that splits
into two parts — including the docstring example 1-123 — or the empty
string makes both unpack attempts of parse_variant fail, and the second
ValueError escapes, where the claim (and the docstring of the function)
requires a sentinel tuple instead of a failure.  The four-part,
three-part and undefined (None) cases behave as claimed. -/
theorem claim_c2_invalid_shape_raises :
    parse_variant (some "") = Except.error PyErr.valueError ∧
    parse_variant (some "1-123") = Except.error PyErr.valueError ∧
    parse_variant (some "1-123-A-G") = Except.ok ⟨"1", "123", "A", "G"⟩ ∧
    parse_variant (some "1-123-A") = Except.ok ⟨"1", "123", ".", "."⟩ ∧
    parse_variant none = Except.ok ⟨".", ".", ".", "."⟩ := by
  refine ⟨rfl, rfl, rfl, rfl, rfl⟩

/-- Claim C8, evaluated at the failing environment: when neither the
finished link nor the check_avail link is found within the bounded
initial waits, download_cadd_scores raises UnboundLocalError — the
return statement in its finally clause discards the TimeoutException the
function just constructed and evaluates the never-assigned job_id — so
the typed job-status error the claim (and the docstring of the function)
promises never reaches the caller.  The polling loop is indeed not
entered, so there is no infinite wait on this path. -/
theorem claim_c8_unresolvable_not_typed :
    download_cadd_scores ⟨none, none, []⟩ = CaddOutcome.unboundLocalError := rfl

/-! ## cadd_pipeline lemmas -/

/-- A successful fallible map preserves length. -/
theorem mapE_ok_length {α β : Type} (f : α → Except PyErr β) :
    ∀ (l : List α) (bs : List β), mapE f l = .ok bs → bs.length = l.length := by
  intro l
  induction l with
  | nil =>
    intro bs h
    cases h
    rfl
  | cons a as ih =>
    intro bs h
    unfold mapE at h
    cases hf : f a with
    | error e => simp only [hf] at h; cases h
    | ok b =>
      simp only [hf] at h
      cases hm : mapE f as with
      | error e => simp only [hm] at h; cases h
      | ok bs2 =>
        simp only [hm] at h
        cases h
        simp [ih bs2 hm]

/-- Length of the concatenated score column. -/
theorem zipScoreColumn_length :
    ∀ (rows : List (List Cell)) (ss : List String), rows.length = ss.length →
      (zipScoreColumn rows ss).length = rows.length := by
  intro rows
  induction rows with
  | nil => intro ss h; rfl
  | cons r rs ih =>
    intro ss h
    cases ss with
    | nil => simp at h
    | cons s ss2 =>
      have h2 : rs.length = ss2.length := by simpa using h
      simp [zipScoreColumn, ih ss2 h2]

/-- Row i of the concatenated frame is row i of the source frame with
its score appended. -/
theorem zipScoreColumn_getD :
    ∀ (rows : List (List Cell)) (ss : List String) (i : Nat), i < rows.length →
      rows.length = ss.length →
      (zipScoreColumn rows ss).getD i [] = rows.getD i [] ++ [some (ss.getD i "")] := by
  intro rows
  induction rows with
  | nil => intro ss i hi; simp at hi
  | cons r rs ih =>
    intro ss i hi hlen
    cases ss with
    | nil => simp at hlen
    | cons s ss2 =>
      cases i with
      | zero => rfl
      | succ j =>
        have hj : j < rs.length := by simpa using hi
        have hl2 : rs.length = ss2.length := by simpa using hlen
        have := ih ss2 j hj hl2
        simpa [zipScoreColumn] using this

/-- Claim C9: the CADD pipeline operates on a copy of its input frame,
and whenever it returns a frame, that frame is the input with exactly
one additional column named PHRED_cadd appended: the column list is the
input column list plus PHRED_cadd, the row count is unchanged, and every
row is the corresponding input row (all pre-existing cells, in order)
with one appended score cell. -/
theorem claim_c9_pipeline_frame (df : DataFrame) (tsv : List String) (out : DataFrame)
    (h : cadd_pipeline df tsv = Except.ok out) :
    out.cols = df.cols ++ ["PHRED_cadd"] ∧
    out.rows.length = df.rows.length ∧
    ∀ i, i < df.rows.length → ∃ s, out.rows.getD i [] = df.rows.getD i [] ++ [some s] := by
  unfold cadd_pipeline at h
  cases hw : write_vcf df with
  | error e => rw [hw] at h; cases h
  | ok vcf =>
    simp only [hw] at h
    cases hp : parse_tsv tsv vcf with
    | error e => simp only [hp] at h; cases h
    | ok scores =>
      simp only [hp] at h
      cases h
      have hlen1 : vcf.length = df.rows.length := mapE_ok_length _ df.rows vcf hw
      have hlen2 : scores.length = vcf.length := by
        have hs := parse_tsv_ok tsv vcf scores hp
        rw [hs, List.length_map]
      have hlen : df.rows.length = scores.length := by omega
      refine ⟨rfl, zipScoreColumn_length df.rows scores hlen, ?_⟩
      intro i hi
      exact ⟨scores.getD i "", zipScoreColumn_getD df.rows scores i hi hlen⟩

/-- Witness for claim C9 on a one-row frame scored by a one-row remote
TSV: the output frame has the PHRED_cadd column appended and the same
number of rows. -/
theorem claim_c9_witness :
    (⟨["hg38_gnomad_format", "PHRED_cadd"],
        [[some "6-100-A-T", some "23.1"]]⟩ : DataFrame).cols =
      (⟨["hg38_gnomad_format"], [[some "6-100-A-T"]]⟩ : DataFrame).cols ++ ["PHRED_cadd"] ∧
    (⟨["hg38_gnomad_format", "PHRED_cadd"],
        [[some "6-100-A-T", some "23.1"]]⟩ : DataFrame).rows.length =
      (⟨["hg38_gnomad_format"], [[some "6-100-A-T"]]⟩ : DataFrame).rows.length := by
  have h : cadd_pipeline ⟨["hg38_gnomad_format"], [[some "6-100-A-T"]]⟩
      ["6\t100\tA\tT\tq\t23.1"] =
      Except.ok ⟨["hg38_gnomad_format", "PHRED_cadd"], [[some "6-100-A-T", some "23.1"]]⟩ := rfl
  have t := claim_c9_pipeline_frame ⟨["hg38_gnomad_format"], [[some "6-100-A-T"]]⟩
    ["6\t100\tA\tT\tq\t23.1"]
    ⟨["hg38_gnomad_format", "PHRED_cadd"], [[some "6-100-A-T", some "23.1"]]⟩ h
  exact ⟨t.1, t.2.1⟩

/-! ## Claim on the batch REVEL resolver -/

/-- A variant string that does not split into exactly four parts makes
the per-row lookup yield the NA sentinel (the unpack raises ValueError,
the handler assigns NA for that row). -/
theorem assign_revel_row_not4 (store : List RevelRecord) (s : String)
    (hlen : (pySplit s '-').length ≠ 4) : assign_revel_row store (some s) = none := by
  simp only [assign_revel_row]
  cases hsp : pySplit s '-' with
  | nil => rfl
  | cons a1 t1 =>
    cases t1 with
    | nil => rfl
    | cons a2 t2 =>
      cases t2 with
      | nil => rfl
      | cons a3 t3 =>
        cases t3 with
        | nil => rfl
        | cons a4 t4 =>
          cases t4 with
          | nil => rw [hsp] at hlen; simp at hlen
          | cons a5 t5 => rfl

/-- Claim C10: the batch REVEL resolver writes exactly one score cell
per input row, in order; a row whose variant identifier is NA gets the
NA sentinel and processing continues, and a row whose identifier fails
to parse into four parts likewise gets the sentinel for that row only —
no row aborts the batch. -/
theorem claim_c10_na_and_failures (store : List RevelRecord) (cells : List (Option String)) :
    (assign_revel_scores store cells).length = cells.length ∧
    (∀ i, i < cells.length → cells.getD i none = none →
      (assign_revel_scores store cells).getD i none = none) ∧
    (∀ i s, i < cells.length → cells.getD i none = some s →
      (pySplit s '-').length ≠ 4 →
      (assign_revel_scores store cells).getD i none = none) := by
  refine ⟨List.length_map .., ?_, ?_⟩
  · intro i hi hna
    have hmap : (assign_revel_scores store cells).getD i none =
        assign_revel_row store (cells.getD i none) :=
      getD_map_lt cells _ i hi none none
    rw [hmap, hna]
    rfl
  · intro i s hi hsome hlen
    have hmap : (assign_revel_scores store cells).getD i none =
        assign_revel_row store (cells.getD i none) :=
      getD_map_lt cells _ i hi none none
    rw [hmap, hsome]
    exact assign_revel_row_not4 store s hlen

/-- Witness for claim C10 on a two-row batch: the NA row and the
malformed row both get the NA sentinel, and the batch completes. -/
theorem claim_c10_witness :
    (assign_revel_scores [] [none, some "xx"]).getD 0 none = none ∧
    (assign_revel_scores [] [none, some "xx"]).getD 1 none = none := by
  constructor
  · exact (claim_c10_na_and_failures [] [none, some "xx"]).2.1 0 (by decide) rfl
  · exact (claim_c10_na_and_failures [] [none, some "xx"]).2.2 1 "xx" (by decide) rfl (by decide)

end Kath
